import Mathlib

/-!
Verification of the `RectDomain` geometric primitive (axis-aligned 2D
rectangular domain) from `domains.py`.  The source stores floating-point
coordinates but uses only addition, subtraction, doubling and comparison,
never division, so its arithmetic is that of a linearly ordered ring; we
model the coordinates by the exact integers `ℤ`, which keeps every
operation decidable and executable.  Each definition below is a direct
translation of the corresponding Python method.
-/

/-- Model of the 2D vector type used by the source: a pair of scalar
coordinates, index 0 = x, index 1 = y. -/
structure Vector2 where
  x : ℤ
  y : ℤ
deriving DecidableEq, Repr

/-- Componentwise subtraction of vectors, used by `intersection` to compute
the size from two corners (`maxCorner - minCorner`). -/
instance : Sub Vector2 :=
  ⟨fun a b => ⟨a.x - b.x, a.y - b.y⟩⟩

theorem Vector2.sub_def (a b : Vector2) : a - b = ⟨a.x - b.x, a.y - b.y⟩ := rfl

/-- Model of `RectDomain.__init__`: a rectangular domain stored as its
minimum corner and its size (span). -/
structure RectDomain where
  minCorner : Vector2
  size : Vector2
deriving DecidableEq, Repr

namespace RectDomain

/-- Translation of `RectDomain.__eq__`: structural equality of the
`minCorner` and `size` fields. -/
def eqDomain (s other : RectDomain) : Bool :=
  decide (s.minCorner = other.minCorner) && decide (s.size = other.size)

/-- Translation of `RectDomain.intersects`: the separating-axis
short-circuit test of the source, returning a boolean. -/
def intersects (s domain : RectDomain) : Bool :=
  !( decide (s.minCorner.x > domain.minCorner.x + domain.size.x) ||
     decide (s.minCorner.y > domain.minCorner.y + domain.size.y) ||
     decide (s.minCorner.x + s.size.x < domain.minCorner.x) ||
     decide (s.minCorner.y + s.size.y < domain.minCorner.y) )

/-- Translation of `RectDomain.pointInside`: translate the point into the
rectangle's local frame and compare against the size, boundary inclusive. -/
def pointInside (s : RectDomain) (point : Vector2) : Bool :=
  let localX := point.x - s.minCorner.x
  let localY := point.y - s.minCorner.y
  decide (localX ≥ 0) && decide (localY ≥ 0) &&
  decide (localX ≤ s.size.x) && decide (localY ≤ s.size.y)

/-- Translation of `RectDomain.reflectPoint`: the 4 × 2 numpy array of the
source becomes a list of four points, rows in the order
left, right, bottom, top. -/
def reflectPoint (s : RectDomain) (point : Vector2) : List Vector2 :=
  let l := s.minCorner.x
  let b := s.minCorner.y
  let r := l + s.size.x
  let t := b + s.size.y
  [ ⟨2 * l - point.x, point.y⟩,
    ⟨2 * r - point.x, point.y⟩,
    ⟨point.x, 2 * b - point.y⟩,
    ⟨point.x, 2 * t - point.y⟩ ]

/-- Translation of `RectDomain.intersection`: `None` when the domains do
not intersect, otherwise sort the four endpoints on each axis (Python's
`list.sort`, modelled by insertion sort over `≤`) and take the two middle
values as the corners of the intersection. -/
def intersection (s domain : RectDomain) : Option RectDomain :=
  if s.intersects domain = false then
    none
  else
    let X := List.insertionSort (· ≤ ·)
      [ s.minCorner.x, domain.minCorner.x,
        s.minCorner.x + s.size.x, domain.minCorner.x + domain.size.x ]
    let Y := List.insertionSort (· ≤ ·)
      [ s.minCorner.y, domain.minCorner.y,
        s.minCorner.y + s.size.y, domain.minCorner.y + domain.size.y ]
    let minC : Vector2 := ⟨X.getD 1 0, Y.getD 1 0⟩
    let maxC : Vector2 := ⟨X.getD 2 0, Y.getD 2 0⟩
    some ⟨minC, maxC - minC⟩

/-- Shorthand for the invariant assumed by the geometric operations:
both size components are non-negative. -/
def nonnegSize (s : RectDomain) : Prop :=
  0 ≤ s.size.x ∧ 0 ≤ s.size.y

instance (s : RectDomain) : Decidable s.nonnegSize := by
  unfold nonnegSize; infer_instance

end RectDomain

/-! ### A small store model for the mutating `copyDomain` method

`copyDomain` rebinds `self.minCorner` and `self.size` to `copy.deepcopy` of
the other domain's vectors.  To reason about aliasing we model Python
object references explicitly: a store maps references (natural numbers) to
`Vector2` values, and a domain object holds two references. -/

/-- A store of allocated `Vector2` cells: the contents of every reference,
together with the next fresh reference; every allocated reference is below
`fresh`. -/
structure Store where
  cells : Nat → Vector2
  fresh : Nat

/-- Reading the vector a reference points at. -/
def Store.read (σ : Store) (r : Nat) : Vector2 :=
  σ.cells r

/-- Mutating the vector a reference points at. -/
def Store.write (σ : Store) (r : Nat) (v : Vector2) : Store :=
  ⟨Function.update σ.cells r v, σ.fresh⟩

/-- Allocating a new cell holding `v`; returns the new store and the new
reference. -/
def Store.alloc (σ : Store) (v : Vector2) : Store × Nat :=
  (⟨Function.update σ.cells σ.fresh v, σ.fresh + 1⟩, σ.fresh)

/-- Model of `copy.deepcopy` applied to a stored `Vector2`: allocate a
fresh cell holding the same value. -/
def Store.deepcopy (σ : Store) (r : Nat) : Store × Nat :=
  σ.alloc (σ.read r)

/-- A reference is valid when it has been allocated. -/
def Store.valid (σ : Store) (r : Nat) : Prop :=
  r < σ.fresh

instance (σ : Store) (r : Nat) : Decidable (σ.valid r) := by
  unfold Store.valid; infer_instance

/-- A `RectDomain` object as the Python runtime sees it: two references to
`Vector2` cells in the store. -/
structure RectDomainRef where
  minCorner : Nat
  size : Nat

/-- Translation of `RectDomain.copyDomain`: rebind `self.minCorner` and
`self.size` to deep copies of `other`'s vectors.  Returns the updated
store and the updated reference pair held by `self`. -/
def RectDomainRef.copyDomain (self : RectDomainRef) (σ : Store)
    (other : RectDomainRef) : Store × RectDomainRef :=
  let m := σ.deepcopy other.minCorner
  let s := m.1.deepcopy other.size
  (s.1, ⟨m.2, s.2⟩)

namespace RectDomain

/-! ### Helper lemmas -/

lemma pointInside_iff (s : RectDomain) (p : Vector2) :
    s.pointInside p = true ↔
      (s.minCorner.x ≤ p.x ∧ p.x ≤ s.minCorner.x + s.size.x ∧
       s.minCorner.y ≤ p.y ∧ p.y ≤ s.minCorner.y + s.size.y) := by
  simp only [pointInside, Bool.and_eq_true, decide_eq_true_eq]
  omega

lemma intersects_iff (s d : RectDomain) :
    s.intersects d = true ↔
      (s.minCorner.x ≤ d.minCorner.x + d.size.x ∧
       s.minCorner.y ≤ d.minCorner.y + d.size.y ∧
       d.minCorner.x ≤ s.minCorner.x + s.size.x ∧
       d.minCorner.y ≤ s.minCorner.y + s.size.y) := by
  simp only [intersects, Bool.not_eq_true', Bool.or_eq_false_iff,
    decide_eq_false_iff_not, not_lt]
  omega

lemma intersects_comm (A B : RectDomain) : A.intersects B = B.intersects A := by
  rw [Bool.eq_iff_iff, intersects_iff, intersects_iff]
  omega

/-- Sorting the four endpoints of two overlapping intervals `[a, c]` and
`[b, d]` yields the two middle values `max a b` and `min c d` in the middle
positions. -/
lemma sort_four (a b c d : ℤ) (hac : a ≤ c) (hbd : b ≤ d)
    (had : a ≤ d) (hbc : b ≤ c) :
    List.insertionSort (· ≤ ·) [a, b, c, d] =
      [min a b, max a b, min c d, max c d] := by
  apply List.eq_of_perm_of_sorted (r := fun x y : ℤ => x ≤ y)
  · refine (List.perm_insertionSort _ _).trans ?_
    rcases le_total a b with h | h <;> rcases le_total c d with h' | h'
    · rw [min_eq_left h, max_eq_right h, min_eq_left h', max_eq_right h']
    · rw [min_eq_left h, max_eq_right h, min_eq_right h', max_eq_left h']
      exact List.Perm.cons a (List.Perm.cons b (List.Perm.swap d c []))
    · rw [min_eq_right h, max_eq_left h, min_eq_left h', max_eq_right h']
      exact List.Perm.swap b a [c, d]
    · rw [min_eq_right h, max_eq_left h, min_eq_right h', max_eq_left h']
      exact (List.Perm.swap b a [c, d]).trans
        (List.Perm.cons b (List.Perm.cons a (List.Perm.swap d c [])))
  · exact List.sorted_insertionSort _ _
  · refine List.Pairwise.cons ?_ (List.Pairwise.cons ?_
      (List.Pairwise.cons ?_ (List.Pairwise.cons ?_ List.Pairwise.nil)))
    · intro y hy
      simp only [List.mem_cons, List.not_mem_nil, or_false] at hy
      rcases hy with rfl | rfl | rfl <;> omega
    · intro y hy
      simp only [List.mem_cons, List.not_mem_nil, or_false] at hy
      rcases hy with rfl | rfl <;> omega
    · intro y hy
      simp only [List.mem_cons, List.not_mem_nil, or_false] at hy
      subst hy
      omega
    · intro y hy
      simp only [List.not_mem_nil] at hy

/-- Exchanging the two interleaved pairs of a four-element list does not
change its insertion sort. -/
lemma insertionSort_pair_swap (a b c d : ℤ) :
    List.insertionSort (· ≤ ·) [a, b, c, d] =
      List.insertionSort (· ≤ ·) [b, a, d, c] := by
  apply List.eq_of_perm_of_sorted (r := fun x y : ℤ => x ≤ y)
  · refine (List.perm_insertionSort _ _).trans
      (List.Perm.trans ?_ (List.perm_insertionSort _ _).symm)
    exact (List.Perm.swap b a [c, d]).trans
      (List.Perm.cons b (List.Perm.cons a (List.Perm.swap d c [])))
  · exact List.sorted_insertionSort _ _
  · exact List.sorted_insertionSort _ _

/-- Characterization of `intersection` when the domains do intersect and
both sizes are non-negative: the result is the rectangle spanning from the
componentwise maximum of the min corners to the componentwise minimum of
the max corners. -/
lemma intersection_eq_some (A B : RectDomain)
    (hA : A.nonnegSize) (hB : B.nonnegSize) (h : A.intersects B = true) :
    A.intersection B = some
      ⟨⟨max A.minCorner.x B.minCorner.x, max A.minCorner.y B.minCorner.y⟩,
       ⟨min (A.minCorner.x + A.size.x) (B.minCorner.x + B.size.x) -
          max A.minCorner.x B.minCorner.x,
        min (A.minCorner.y + A.size.y) (B.minCorner.y + B.size.y) -
          max A.minCorner.y B.minCorner.y⟩⟩ := by
  obtain ⟨hAx, hAy⟩ := hA
  obtain ⟨hBx, hBy⟩ := hB
  have h' := (intersects_iff A B).mp h
  have hx := sort_four A.minCorner.x B.minCorner.x (A.minCorner.x + A.size.x)
      (B.minCorner.x + B.size.x) (by omega) (by omega) (by omega) (by omega)
  have hy := sort_four A.minCorner.y B.minCorner.y (A.minCorner.y + A.size.y)
      (B.minCorner.y + B.size.y) (by omega) (by omega) (by omega) (by omega)
  simp only [intersection, h, Bool.true_eq_false, if_false, hx, hy,
    List.getD_cons_succ, List.getD_cons_zero, Vector2.sub_def]

/-- An `intersection` result of `some` can only come from the else branch,
so the domains intersect. -/
lemma intersects_of_intersection_eq_some (A B R : RectDomain)
    (h : A.intersection B = some R) : A.intersects B = true := by
  by_contra hc
  have hf : A.intersects B = false := by
    revert hc
    cases A.intersects B <;> simp
  rw [intersection, if_pos hf] at h
  exact Option.noConfusion h

/-- The `intersection` method returns `none` exactly when `intersects`
reports no intersection; this needs no size hypotheses. -/
lemma intersection_eq_none_iff (A B : RectDomain) :
    A.intersection B = none ↔ A.intersects B = false := by
  by_cases h : A.intersects B = false
  · simp [intersection, h]
  · simp [intersection, h]

end RectDomain

namespace Store

lemma read_alloc_new (σ : Store) (v : Vector2) :
    (σ.alloc v).1.read σ.fresh = v := by
  simp [alloc, read]

lemma read_alloc_ne (σ : Store) (v : Vector2) (r : Nat) (h : r ≠ σ.fresh) :
    (σ.alloc v).1.read r = σ.read r := by
  simp [alloc, read, Function.update_noteq h]

lemma alloc_fresh (σ : Store) (v : Vector2) :
    (σ.alloc v).1.fresh = σ.fresh + 1 := rfl

lemma alloc_ref (σ : Store) (v : Vector2) :
    (σ.alloc v).2 = σ.fresh := rfl

lemma read_write_ne (σ : Store) (r r' : Nat) (v : Vector2) (h : r' ≠ r) :
    (σ.write r v).read r' = σ.read r' := by
  simp [write, read, Function.update_noteq h]

end Store

/-! ### Claim theorems -/

/-- C5: for all rectangles A and B, `A.intersects(B) == B.intersects(A)`:
the intersects predicate is symmetric in its two arguments, with no
precondition on the signs of the sizes. -/
theorem intersects_symm (A B : RectDomain) :
    A.intersects B = B.intersects A :=
  RectDomain.intersects_comm A B

/-- C6: `D.pointInside(P)` returns true iff P lies in the closed rectangle
including its boundary: with `localX = P.x - minCorner.x` and
`localY = P.y - minCorner.y`, it returns true exactly when
`0 <= localX <= size.x` and `0 <= localY <= size.y`. -/
theorem pointInside_closed_characterization (D : RectDomain) (P : Vector2) :
    D.pointInside P = true ↔
      (0 ≤ P.x - D.minCorner.x ∧ P.x - D.minCorner.x ≤ D.size.x ∧
       0 ≤ P.y - D.minCorner.y ∧ P.y - D.minCorner.y ≤ D.size.y) := by
  simp only [RectDomain.pointInside, Bool.and_eq_true, decide_eq_true_eq]
  omega

/-- C7: for every rectangle D and every point P (inside the domain or
not), `D.reflectPoint(P)` is a total function returning four points in the
fixed order left, right, bottom, top, with the reflection formulas of the
spec. -/
theorem reflectPoint_rows (D : RectDomain) (P : Vector2) :
    D.reflectPoint P =
      [ ⟨2 * D.minCorner.x - P.x, P.y⟩,
        ⟨2 * (D.minCorner.x + D.size.x) - P.x, P.y⟩,
        ⟨P.x, 2 * D.minCorner.y - P.y⟩,
        ⟨P.x, 2 * (D.minCorner.y + D.size.y) - P.y⟩ ] ∧
    (D.reflectPoint P).length = 4 :=
  ⟨rfl, rfl⟩

/-- C9: the four reference test cases for `intersection` against the
rectangle with min corner (0,0) and size (5,5). -/
theorem intersection_reference_cases :
    RectDomain.intersection ⟨⟨0, 0⟩, ⟨5, 5⟩⟩ ⟨⟨6, 6⟩, ⟨1, 1⟩⟩ = none ∧
    RectDomain.intersection ⟨⟨0, 0⟩, ⟨5, 5⟩⟩ ⟨⟨1, 1⟩, ⟨3, 3⟩⟩ =
      some ⟨⟨1, 1⟩, ⟨3, 3⟩⟩ ∧
    RectDomain.intersection ⟨⟨0, 0⟩, ⟨5, 5⟩⟩ ⟨⟨-1, -1⟩, ⟨2, 2⟩⟩ =
      some ⟨⟨0, 0⟩, ⟨1, 1⟩⟩ ∧
    RectDomain.intersection ⟨⟨0, 0⟩, ⟨5, 5⟩⟩ ⟨⟨-1, 1⟩, ⟨2, 2⟩⟩ =
      some ⟨⟨0, 1⟩, ⟨1, 2⟩⟩ := by
  refine ⟨by decide, by decide, by decide, by decide⟩

/-- C10: for all rectangles A and B (with no precondition on the sizes),
`A.intersection(B)` and `B.intersection(A)` agree: both are null or both
are the same rectangle, because the sorted four endpoints on each axis do
not depend on the argument order. -/
theorem intersection_symm (A B : RectDomain) :
    A.intersection B = B.intersection A := by
  unfold RectDomain.intersection
  rw [RectDomain.intersects_comm]
  by_cases h : B.intersects A = false
  · rw [if_pos h, if_pos h]
  · rw [if_neg h, if_neg h]
    rw [RectDomain.insertionSort_pair_swap A.minCorner.x B.minCorner.x
        (A.minCorner.x + A.size.x) (B.minCorner.x + B.size.x),
      RectDomain.insertionSort_pair_swap A.minCorner.y B.minCorner.y
        (A.minCorner.y + A.size.y) (B.minCorner.y + B.size.y)]

/-- C1: if `A.intersection(B)` returns a rectangle R (sizes of A and B
non-negative), R's region is contained in both A and B: on each axis
R's minimum is at or above both minima and R's maximum at or below both
maxima, and every point inside R is inside A and inside B. -/
theorem intersection_contained (A B R : RectDomain) (P : Vector2)
    (hA : A.nonnegSize) (hB : B.nonnegSize)
    (hR : A.intersection B = some R) (hP : R.pointInside P = true) :
    (A.minCorner.x ≤ R.minCorner.x ∧ B.minCorner.x ≤ R.minCorner.x ∧
     R.minCorner.x + R.size.x ≤ A.minCorner.x + A.size.x ∧
     R.minCorner.x + R.size.x ≤ B.minCorner.x + B.size.x ∧
     A.minCorner.y ≤ R.minCorner.y ∧ B.minCorner.y ≤ R.minCorner.y ∧
     R.minCorner.y + R.size.y ≤ A.minCorner.y + A.size.y ∧
     R.minCorner.y + R.size.y ≤ B.minCorner.y + B.size.y) ∧
    A.pointInside P = true ∧ B.pointInside P = true := by
  have hi := RectDomain.intersects_of_intersection_eq_some A B R hR
  have h' := (RectDomain.intersects_iff A B).mp hi
  rw [RectDomain.intersection_eq_some A B hA hB hi, Option.some_inj] at hR
  obtain ⟨hAx, hAy⟩ := hA
  obtain ⟨hBx, hBy⟩ := hB
  subst hR
  rw [RectDomain.pointInside_iff] at hP
  rw [RectDomain.pointInside_iff, RectDomain.pointInside_iff]
  dsimp only at hP ⊢
  omega

/-- Witness for C1 at A = min(0,0) size(5,5), B = R = min(1,1) size(3,3),
P = (2,2). -/
theorem intersection_contained_witness :
    (((0:ℤ) ≤ 1 ∧ (1:ℤ) ≤ 1 ∧ (1:ℤ) + 3 ≤ 0 + 5 ∧ (1:ℤ) + 3 ≤ 1 + 3 ∧
      (0:ℤ) ≤ 1 ∧ (1:ℤ) ≤ 1 ∧ (1:ℤ) + 3 ≤ 0 + 5 ∧ (1:ℤ) + 3 ≤ 1 + 3) ∧
     RectDomain.pointInside ⟨⟨0, 0⟩, ⟨5, 5⟩⟩ ⟨2, 2⟩ = true ∧
     RectDomain.pointInside ⟨⟨1, 1⟩, ⟨3, 3⟩⟩ ⟨2, 2⟩ = true) :=
  intersection_contained ⟨⟨0, 0⟩, ⟨5, 5⟩⟩ ⟨⟨1, 1⟩, ⟨3, 3⟩⟩ ⟨⟨1, 1⟩, ⟨3, 3⟩⟩
    ⟨2, 2⟩ (by decide) (by decide) (by decide) (by decide)

/-- C2 counterexample: the claim fails as stated.  For D = min(0,0)
size(5,5) and the boundary point P = (0,2), P is inside D, D has nonzero
width, yet the left reflection of P equals P and is inside D, so
`pointInside` of the left reflection is not false. -/
theorem reflect_boundary_counterexample :
    RectDomain.nonnegSize ⟨⟨0, 0⟩, ⟨5, 5⟩⟩ ∧
    RectDomain.pointInside ⟨⟨0, 0⟩, ⟨5, 5⟩⟩ ⟨0, 2⟩ = true ∧
    (⟨⟨0, 0⟩, ⟨5, 5⟩⟩ : RectDomain).size.x ≠ 0 ∧
    RectDomain.pointInside ⟨⟨0, 0⟩, ⟨5, 5⟩⟩
      ((RectDomain.reflectPoint ⟨⟨0, 0⟩, ⟨5, 5⟩⟩ ⟨0, 2⟩).getD 0 ⟨0, 0⟩)
      = true := by
  decide

/-- C2 (amended): for D with non-negative sizes and P inside D, each of
the four reflections of P is outside D unless P lies on the corresponding
boundary line itself (left: P.x = min-x, right: P.x = max-x, bottom:
P.y = min-y, top: P.y = max-y); zero width or height is the special case
in which an inside point necessarily lies on both such boundaries. -/
theorem reflect_outside_unless_on_boundary (D : RectDomain) (P : Vector2)
    (hD : D.nonnegSize) (hP : D.pointInside P = true) :
    (P.x ≠ D.minCorner.x →
      D.pointInside ((D.reflectPoint P).getD 0 ⟨0, 0⟩) = false) ∧
    (P.x ≠ D.minCorner.x + D.size.x →
      D.pointInside ((D.reflectPoint P).getD 1 ⟨0, 0⟩) = false) ∧
    (P.y ≠ D.minCorner.y →
      D.pointInside ((D.reflectPoint P).getD 2 ⟨0, 0⟩) = false) ∧
    (P.y ≠ D.minCorner.y + D.size.y →
      D.pointInside ((D.reflectPoint P).getD 3 ⟨0, 0⟩) = false) := by
  obtain ⟨hx, hy⟩ := hD
  rw [RectDomain.pointInside_iff] at hP
  simp only [RectDomain.reflectPoint, List.getD_cons_zero, List.getD_cons_succ]
  refine ⟨?_, ?_, ?_, ?_⟩ <;>
    · intro hne
      rw [Bool.eq_false_iff, Ne, RectDomain.pointInside_iff]
      dsimp only
      omega

/-- Witness for the amended C2 at D = min(0,0) size(5,5) and the interior
point P = (2,2). -/
theorem reflect_outside_witness :
    (((2:ℤ) ≠ 0 → RectDomain.pointInside ⟨⟨0, 0⟩, ⟨5, 5⟩⟩
        ((RectDomain.reflectPoint ⟨⟨0, 0⟩, ⟨5, 5⟩⟩ ⟨2, 2⟩).getD 0 ⟨0, 0⟩)
        = false) ∧
     ((2:ℤ) ≠ 0 + 5 → RectDomain.pointInside ⟨⟨0, 0⟩, ⟨5, 5⟩⟩
        ((RectDomain.reflectPoint ⟨⟨0, 0⟩, ⟨5, 5⟩⟩ ⟨2, 2⟩).getD 1 ⟨0, 0⟩)
        = false) ∧
     ((2:ℤ) ≠ 0 → RectDomain.pointInside ⟨⟨0, 0⟩, ⟨5, 5⟩⟩
        ((RectDomain.reflectPoint ⟨⟨0, 0⟩, ⟨5, 5⟩⟩ ⟨2, 2⟩).getD 2 ⟨0, 0⟩)
        = false) ∧
     ((2:ℤ) ≠ 0 + 5 → RectDomain.pointInside ⟨⟨0, 0⟩, ⟨5, 5⟩⟩
        ((RectDomain.reflectPoint ⟨⟨0, 0⟩, ⟨5, 5⟩⟩ ⟨2, 2⟩).getD 3 ⟨0, 0⟩)
        = false)) :=
  reflect_outside_unless_on_boundary ⟨⟨0, 0⟩, ⟨5, 5⟩⟩ ⟨2, 2⟩
    (by decide) (by decide)

/-- C3: for rectangles with non-negative sizes, `intersects` returns
false exactly when one of the four separating-axis conditions holds, and
returns true exactly when the two closed rectangles share a common point
(so rectangles merely touching at an edge or corner count as
intersecting). -/
theorem intersects_separating_axis (A B : RectDomain)
    (hA : A.nonnegSize) (hB : B.nonnegSize) :
    (A.intersects B = false ↔
      (A.minCorner.x > B.minCorner.x + B.size.x ∨
       A.minCorner.y > B.minCorner.y + B.size.y ∨
       A.minCorner.x + A.size.x < B.minCorner.x ∨
       A.minCorner.y + A.size.y < B.minCorner.y)) ∧
    (A.intersects B = true ↔
      ∃ P : Vector2, A.pointInside P = true ∧ B.pointInside P = true) := by
  obtain ⟨hAx, hAy⟩ := hA
  obtain ⟨hBx, hBy⟩ := hB
  constructor
  · rw [Bool.eq_false_iff, Ne, RectDomain.intersects_iff]
    omega
  · constructor
    · intro h
      have h' := (RectDomain.intersects_iff A B).mp h
      refine ⟨⟨max A.minCorner.x B.minCorner.x,
               max A.minCorner.y B.minCorner.y⟩, ?_, ?_⟩ <;>
        · rw [RectDomain.pointInside_iff]
          dsimp only
          omega
    · rintro ⟨P, h1, h2⟩
      rw [RectDomain.pointInside_iff] at h1 h2
      rw [RectDomain.intersects_iff]
      omega

/-- Witness for C3 at A = min(0,0) size(5,5), B = min(1,1) size(3,3). -/
theorem intersects_separating_axis_witness :
    ((RectDomain.intersects ⟨⟨0, 0⟩, ⟨5, 5⟩⟩ ⟨⟨1, 1⟩, ⟨3, 3⟩⟩ = false ↔
       ((0:ℤ) > 1 + 3 ∨ (0:ℤ) > 1 + 3 ∨
        (0:ℤ) + 5 < 1 ∨ (0:ℤ) + 5 < 1)) ∧
     (RectDomain.intersects ⟨⟨0, 0⟩, ⟨5, 5⟩⟩ ⟨⟨1, 1⟩, ⟨3, 3⟩⟩ = true ↔
       ∃ P : Vector2,
         RectDomain.pointInside ⟨⟨0, 0⟩, ⟨5, 5⟩⟩ P = true ∧
         RectDomain.pointInside ⟨⟨1, 1⟩, ⟨3, 3⟩⟩ P = true)) :=
  intersects_separating_axis ⟨⟨0, 0⟩, ⟨5, 5⟩⟩ ⟨⟨1, 1⟩, ⟨3, 3⟩⟩
    (by decide) (by decide)

/-- C4: for rectangles with non-negative sizes, `intersection` is null
exactly when `intersects` is false, and when the rectangles intersect
while touching at a shared boundary coordinate the result is a rectangle
with zero width or zero height. -/
theorem intersection_none_iff_and_touch (A B : RectDomain)
    (hA : A.nonnegSize) (hB : B.nonnegSize) :
    (A.intersection B = none ↔ A.intersects B = false) ∧
    (A.intersects B = true →
      (A.minCorner.x + A.size.x = B.minCorner.x ∨
       B.minCorner.x + B.size.x = A.minCorner.x ∨
       A.minCorner.y + A.size.y = B.minCorner.y ∨
       B.minCorner.y + B.size.y = A.minCorner.y) →
      ∃ R : RectDomain, A.intersection B = some R ∧
        (R.size.x = 0 ∨ R.size.y = 0)) := by
  refine ⟨RectDomain.intersection_eq_none_iff A B, ?_⟩
  intro hi ht
  refine ⟨_, RectDomain.intersection_eq_some A B hA hB hi, ?_⟩
  have h' := (RectDomain.intersects_iff A B).mp hi
  obtain ⟨hAx, hAy⟩ := hA
  obtain ⟨hBx, hBy⟩ := hB
  dsimp only
  omega

/-- Witness for C4 at A = min(0,0) size(5,5) and B = min(5,0) size(2,2),
which touch along the edge x = 5. -/
theorem intersection_none_iff_and_touch_witness :
    ((RectDomain.intersection ⟨⟨0, 0⟩, ⟨5, 5⟩⟩ ⟨⟨5, 0⟩, ⟨2, 2⟩⟩ = none ↔
       RectDomain.intersects ⟨⟨0, 0⟩, ⟨5, 5⟩⟩ ⟨⟨5, 0⟩, ⟨2, 2⟩⟩ = false) ∧
     (RectDomain.intersects ⟨⟨0, 0⟩, ⟨5, 5⟩⟩ ⟨⟨5, 0⟩, ⟨2, 2⟩⟩ = true →
       ((0:ℤ) + 5 = 5 ∨ (5:ℤ) + 2 = 0 ∨ (0:ℤ) + 5 = 0 ∨ (0:ℤ) + 2 = 0) →
       ∃ R : RectDomain,
         RectDomain.intersection ⟨⟨0, 0⟩, ⟨5, 5⟩⟩ ⟨⟨5, 0⟩, ⟨2, 2⟩⟩
           = some R ∧ (R.size.x = 0 ∨ R.size.y = 0))) :=
  intersection_none_iff_and_touch ⟨⟨0, 0⟩, ⟨5, 5⟩⟩ ⟨⟨5, 0⟩, ⟨2, 2⟩⟩
    (by decide) (by decide)

/-- C8: after `A.copyDomain(B)` the two domains are structurally equal,
B's stored vectors are unchanged, and A holds deep copies of B's vectors:
writing to either of B's cells afterwards does not change the values A
reads (no aliasing). -/
theorem copyDomain_deep_copy (σ : Store) (self other : RectDomainRef)
    (v : Vector2) (r : Nat)
    (hm : σ.valid other.minCorner) (hs : σ.valid other.size)
    (hr : r = other.minCorner ∨ r = other.size) :
    RectDomain.eqDomain
      ⟨(self.copyDomain σ other).1.read (self.copyDomain σ other).2.minCorner,
       (self.copyDomain σ other).1.read (self.copyDomain σ other).2.size⟩
      ⟨(self.copyDomain σ other).1.read other.minCorner,
       (self.copyDomain σ other).1.read other.size⟩ = true ∧
    ((self.copyDomain σ other).1.read other.minCorner
        = σ.read other.minCorner ∧
     (self.copyDomain σ other).1.read other.size = σ.read other.size) ∧
    (((self.copyDomain σ other).1.write r v).read
        (self.copyDomain σ other).2.minCorner
      = (self.copyDomain σ other).1.read
          (self.copyDomain σ other).2.minCorner ∧
     ((self.copyDomain σ other).1.write r v).read
        (self.copyDomain σ other).2.size
      = (self.copyDomain σ other).1.read
          (self.copyDomain σ other).2.size) := by
  have hm' : other.minCorner < σ.fresh := hm
  have hs' : other.size < σ.fresh := hs
  have hr' : r < σ.fresh := by rcases hr with rfl | rfl <;> omega
  have n1 : σ.fresh ≠ σ.fresh + 1 := by omega
  have n2 : other.minCorner ≠ σ.fresh + 1 := by omega
  have n3 : other.minCorner ≠ σ.fresh := by omega
  have n4 : other.size ≠ σ.fresh + 1 := by omega
  have n5 : other.size ≠ σ.fresh := by omega
  have n6 : σ.fresh ≠ r := by omega
  have n7 : σ.fresh + 1 ≠ r := by omega
  simp only [RectDomainRef.copyDomain, Store.deepcopy, Store.alloc,
    Store.read, Store.write, RectDomain.eqDomain, Bool.and_eq_true,
    decide_eq_true_eq, Function.update_noteq n1, Function.update_noteq n2,
    Function.update_noteq n3, Function.update_noteq n4,
    Function.update_noteq n5, Function.update_noteq n6,
    Function.update_noteq n7, Function.update_same, and_self]

/-- Witness for C8 with a two-cell store and a concrete write to B's
min-corner cell afterwards. -/
theorem copyDomain_deep_copy_witness :
    RectDomain.eqDomain
      ⟨((RectDomainRef.copyDomain ⟨0, 1⟩ ⟨fun _ => ⟨0, 0⟩, 2⟩ ⟨0, 1⟩).1).read
         ((RectDomainRef.copyDomain ⟨0, 1⟩ ⟨fun _ => ⟨0, 0⟩, 2⟩ ⟨0, 1⟩).2).minCorner,
       ((RectDomainRef.copyDomain ⟨0, 1⟩ ⟨fun _ => ⟨0, 0⟩, 2⟩ ⟨0, 1⟩).1).read
         ((RectDomainRef.copyDomain ⟨0, 1⟩ ⟨fun _ => ⟨0, 0⟩, 2⟩ ⟨0, 1⟩).2).size⟩
      ⟨((RectDomainRef.copyDomain ⟨0, 1⟩ ⟨fun _ => ⟨0, 0⟩, 2⟩ ⟨0, 1⟩).1).read 0,
       ((RectDomainRef.copyDomain ⟨0, 1⟩ ⟨fun _ => ⟨0, 0⟩, 2⟩ ⟨0, 1⟩).1).read 1⟩
      = true ∧
    (((RectDomainRef.copyDomain ⟨0, 1⟩ ⟨fun _ => ⟨0, 0⟩, 2⟩ ⟨0, 1⟩).1).read 0
        = Store.read ⟨fun _ => ⟨0, 0⟩, 2⟩ 0 ∧
     ((RectDomainRef.copyDomain ⟨0, 1⟩ ⟨fun _ => ⟨0, 0⟩, 2⟩ ⟨0, 1⟩).1).read 1
        = Store.read ⟨fun _ => ⟨0, 0⟩, 2⟩ 1) ∧
    ((((RectDomainRef.copyDomain ⟨0, 1⟩ ⟨fun _ => ⟨0, 0⟩, 2⟩ ⟨0, 1⟩).1).write 0
          ⟨7, 7⟩).read
        ((RectDomainRef.copyDomain ⟨0, 1⟩ ⟨fun _ => ⟨0, 0⟩, 2⟩ ⟨0, 1⟩).2).minCorner
      = ((RectDomainRef.copyDomain ⟨0, 1⟩ ⟨fun _ => ⟨0, 0⟩, 2⟩ ⟨0, 1⟩).1).read
          ((RectDomainRef.copyDomain ⟨0, 1⟩ ⟨fun _ => ⟨0, 0⟩, 2⟩ ⟨0, 1⟩).2).minCorner ∧
     (((RectDomainRef.copyDomain ⟨0, 1⟩ ⟨fun _ => ⟨0, 0⟩, 2⟩ ⟨0, 1⟩).1).write 0
          ⟨7, 7⟩).read
        ((RectDomainRef.copyDomain ⟨0, 1⟩ ⟨fun _ => ⟨0, 0⟩, 2⟩ ⟨0, 1⟩).2).size
      = ((RectDomainRef.copyDomain ⟨0, 1⟩ ⟨fun _ => ⟨0, 0⟩, 2⟩ ⟨0, 1⟩).1).read
          ((RectDomainRef.copyDomain ⟨0, 1⟩ ⟨fun _ => ⟨0, 0⟩, 2⟩ ⟨0, 1⟩).2).size) :=
  copyDomain_deep_copy ⟨fun _ => ⟨0, 0⟩, 2⟩ ⟨0, 1⟩ ⟨0, 1⟩ ⟨7, 7⟩ 0
    (by decide) (by decide) (Or.inl rfl)
